import Mathlib

/-!
# Verification of the tempcdn local server core (`src/local-server.js`)

Shallow embedding of the in-memory file-relay server: the two global JS
`Map`s (`fileStorage`, `fileMetadata`), the multer upload configuration
(size limit and MIME allow-list), `generateShortCode`, `isPreviewable`,
the `POST /upload` handler, the `GET /api/download/:code` and
`GET /api/preview/:code` handlers, and the per-upload `setTimeout`
cleanup callback.

JS strings are modelled as `List Char`; JS `Map`s as insertion-ordered
association lists with unique keys (`mapSet` updates in place or appends,
`mapDelete` removes, iteration order is list order, matching JS `Map`
semantics). Nondeterministic inputs of the original code
(`Math.random().toString(36)`, `uuidv4()`, `Date.now()`,
`new Date().toISOString()`) are passed in as explicit parameters.
-/

namespace TempCdn

/-- JS strings (ASCII in this application), as lists of characters. -/
abbrev Str := List Char

/-! ## JS `Map` operations on insertion-ordered association lists -/

/-- `m.has(k)` for a JS `Map` modelled as an association list. -/
def mapHas (k : Str) (m : List (Str × α)) : Bool :=
  m.any (fun p => p.1 == k)

/-- `m.get(k)` for a JS `Map`. -/
def mapGet (k : Str) (m : List (Str × α)) : Option α :=
  (m.find? (fun p => p.1 == k)).map Prod.snd

/-- `m.set(k, v)` for a JS `Map`: update in place if the key is present
(keeping insertion order), otherwise append. -/
def mapSet (k : Str) (v : α) (m : List (Str × α)) : List (Str × α) :=
  if mapHas k m then m.map (fun p => if p.1 == k then (k, v) else p)
  else m ++ [(k, v)]

/-- `m.delete(k)` for a JS `Map`. -/
def mapDelete (k : Str) (m : List (Str × α)) : List (Str × α) :=
  m.filter (fun p => p.1 != k)

/-! ## Data model (`src/local-server.js` lines 11-12, 74-93) -/

/-- The value stored in `fileStorage` (lines 74-79): the raw buffer plus
the multer file fields. Bytes are modelled as natural numbers. -/
structure FileData where
  buffer : List Nat
  mimetype : Str
  originalname : Str
  size : Nat
deriving DecidableEq

/-- The value stored in `fileMetadata` (lines 82-93). -/
structure Metadata where
  fileId : Str
  shortCode : Str
  originalName : Str
  size : Nat
  mimetype : Str
  uploadTime : Str
  expirationTime : Nat
  previewable : Bool
  downloadUrl : Str
  previewUrl : Option Str
deriving DecidableEq

/-- The two global in-memory maps (lines 11-12). -/
structure ServerState where
  fileStorage : List (Str × FileData)
  fileMetadata : List (Str × Metadata)
deriving DecidableEq

/-- Both maps start empty. -/
def initialState : ServerState := ⟨[], []⟩

/-! ## Multer configuration (lines 15-34) -/

/-- `limits.fileSize: 10 * 1024 * 1024` (line 18). -/
def fileSizeLimit : Nat := 10 * 1024 * 1024

/-- The `allowedTypes` list of the multer `fileFilter` (lines 21-26). -/
def allowedTypes : List Str :=
  ["image/jpeg".toList, "image/jpg".toList, "image/png".toList,
   "image/gif".toList, "image/webp".toList,
   "video/mp4".toList, "video/webm".toList,
   "audio/mpeg".toList, "audio/wav".toList,
   "text/plain".toList, "application/pdf".toList]

/-- The multer `fileFilter` callback (lines 20-33): accept exactly when
`allowedTypes.includes(file.mimetype)` — a case-sensitive string match. -/
def fileFilter (mimetype : Str) : Bool :=
  allowedTypes.contains mimetype

/-! ## Helpers (lines 37-48) -/

/-- `generateShortCode` (lines 37-39):
`Math.random().toString(36).substring(2, 8).toUpperCase()`.
The argument is the string returned by `Math.random().toString(36)`
(for example `"0.k3j9fq2lz..."`); the function drops the leading `"0."`,
takes the next six characters, and uppercases them. -/
def generateShortCode (randStr : Str) : Str :=
  ((randStr.drop 2).take 6).map Char.toUpper

/-- `isPreviewable` (lines 42-48). -/
def isPreviewable (mimetype : Str) : Bool :=
  "image/".toList.isPrefixOf mimetype ||
  "video/".toList.isPrefixOf mimetype ||
  "audio/".toList.isPrefixOf mimetype ||
  "text/".toList.isPrefixOf mimetype ||
  mimetype == "application/pdf".toList

/-! ## Upload (lines 60-124) -/

/-- The multer file object handed to the upload handler. -/
structure UploadedFile where
  buffer : List Nat
  mimetype : Str
  originalname : Str
  size : Nat
deriving DecidableEq

/-- The JSON body of a successful upload response (lines 106-115).
`expiresAt` keeps the numeric `expirationTime` timestamp (the source
formats it with `toLocaleString`, which is pure presentation). -/
structure UploadResponse where
  shortCode : Str
  downloadUrl : Str
  previewUrl : Option Str
  filename : Str
  size : Nat
  previewable : Bool
  expiresAt : Nat
deriving DecidableEq

/-- Outcome of `POST /upload`: success, or rejection by the multer layer
(`fileFilter` mismatch / `LIMIT_FILE_SIZE`), which prevents the handler
from running. -/
inductive UploadResult where
  | ok (resp : UploadResponse)
  | unsupportedType
  | payloadTooLarge
deriving DecidableEq

/-- Three hours in milliseconds (lines 71 and 104). -/
def ttlMillis : Nat := 3 * 60 * 60 * 1000

/-- The value inserted into `fileStorage` (lines 74-79). -/
def storedFileData (file : UploadedFile) : FileData :=
  ⟨file.buffer, file.mimetype, file.originalname, file.size⟩

/-- The value inserted into `fileMetadata` (lines 82-93), with
`shortCode = generateShortCode(...)` and
`expirationTime = Date.now() + 3 * 60 * 60 * 1000` (line 71). -/
def storedMetadata (file : UploadedFile) (fileId shortCode : Str)
    (now : Nat) (uploadTime : Str) : Metadata :=
  { fileId := fileId
    shortCode := shortCode
    originalName := file.originalname
    size := file.size
    mimetype := file.mimetype
    uploadTime := uploadTime
    expirationTime := now + ttlMillis
    previewable := isPreviewable file.mimetype
    downloadUrl := "/api/download/".toList ++ shortCode
    previewUrl := if isPreviewable file.mimetype then
        some ("/api/preview/".toList ++ shortCode) else none }

/-- The JSON body sent on success (lines 106-115). -/
def uploadResponse (file : UploadedFile) (shortCode : Str) (now : Nat) :
    UploadResponse :=
  { shortCode := shortCode
    downloadUrl := "/api/download/".toList ++ shortCode
    previewUrl := if isPreviewable file.mimetype then
        some ("/api/preview/".toList ++ shortCode) else none
    filename := file.originalname
    size := file.size
    previewable := isPreviewable file.mimetype
    expiresAt := now + ttlMillis }

/-- The body of the upload handler (lines 69-115), reached only after
multer accepted the file. `fileId` is the `uuidv4()` result, `randStr`
the `Math.random().toString(36)` result feeding `generateShortCode`,
`now` is `Date.now()`, and `uploadTime` the `toISOString()` result. -/
def uploadHandler (file : UploadedFile) (fileId : Str) (randStr : Str)
    (now : Nat) (uploadTime : Str) (s : ServerState) :
    UploadResult × ServerState :=
  (UploadResult.ok (uploadResponse file (generateShortCode randStr) now),
   ⟨mapSet fileId (storedFileData file) s.fileStorage,
    mapSet fileId
      (storedMetadata file fileId (generateShortCode randStr) now uploadTime)
      s.fileMetadata⟩)

/-- `POST /upload` including the multer layer (lines 15-34, 60-124):
the `fileFilter` runs when the file part's headers arrive, the
`fileSize` limit triggers while the content streams, and on either
rejection the handler body never runs, so the maps are untouched. -/
def uploadOp (file : UploadedFile) (fileId : Str) (randStr : Str)
    (now : Nat) (uploadTime : Str) (s : ServerState) :
    UploadResult × ServerState :=
  if fileFilter file.mimetype then
    if file.size ≤ fileSizeLimit then
      uploadHandler file fileId randStr now uploadTime s
    else (.payloadTooLarge, s)
  else (.unsupportedType, s)

/-- The `setTimeout` cleanup callback registered at upload (lines 98-104),
firing three hours later with the captured `fileId`. -/
def cleanupTimer (fileId : Str) (s : ServerState) : ServerState :=
  if mapHas fileId s.fileStorage then
    ⟨mapDelete fileId s.fileStorage, mapDelete fileId s.fileMetadata⟩
  else s

/-! ## Download and preview (lines 127-212) -/

/-- Outcome of `GET /api/download/:code` and `GET /api/preview/:code`:
`notFound` is the 404 `'File not found'`, `dataNotFound` the 404
`'File data not found'`, `notPreviewable` the 403 (preview only),
`expired` the 410, and `ok` the 200 carrying the buffer and the
`Content-Type` / `filename` header values. -/
inductive FetchResult where
  | notFound
  | dataNotFound
  | notPreviewable
  | expired
  | ok (buffer : List Nat) (mimetype : Str) (filename : Str)
deriving DecidableEq

/-- The `for (const [id, meta] of fileMetadata.entries())` scan with
`break` (lines 135-141, 177-183): the first entry in insertion order
whose `shortCode` equals the requested code. -/
def findByCode (code : Str) (metas : List (Str × Metadata)) :
    Option (Str × Metadata) :=
  metas.find? (fun p => p.2.shortCode == code)

/-- The lazy-eviction performed by both read handlers on an expired
object (lines 153-154, 199-200): delete the id from both maps. -/
def removeEntry (fileId : Str) (s : ServerState) : ServerState :=
  ⟨mapDelete fileId s.fileStorage, mapDelete fileId s.fileMetadata⟩

/-- `GET /api/download/:code` (lines 127-166). -/
def downloadOp (code : Str) (now : Nat) (s : ServerState) :
    FetchResult × ServerState :=
  match findByCode code s.fileMetadata with
  | none => (.notFound, s)
  | some (fileId, metadata) =>
    match mapGet fileId s.fileStorage with
    | none => (.dataNotFound, s)
    | some fileData =>
      if now > metadata.expirationTime then
        (.expired, removeEntry fileId s)
      else
        (.ok fileData.buffer metadata.mimetype metadata.originalName, s)

/-- `GET /api/preview/:code` (lines 169-212): like download, but with the
`!metadata.previewable → 403` check between the metadata scan and the
`fileStorage` lookup. -/
def previewOp (code : Str) (now : Nat) (s : ServerState) :
    FetchResult × ServerState :=
  match findByCode code s.fileMetadata with
  | none => (.notFound, s)
  | some (fileId, metadata) =>
    if !metadata.previewable then (.notPreviewable, s)
    else
      match mapGet fileId s.fileStorage with
      | none => (.dataNotFound, s)
      | some fileData =>
        if now > metadata.expirationTime then
          (.expired, removeEntry fileId s)
        else
          (.ok fileData.buffer metadata.mimetype metadata.originalName, s)

/-! ## Operational semantics: every event the server can process -/

/-- One server event: an upload request (with arbitrary multer-level
inputs and oracles for the random values), a download request, a preview
request, or a cleanup timer firing. -/
inductive Step : ServerState → ServerState → Prop where
  | upload (file : UploadedFile) (fileId randStr : Str) (now : Nat)
      (uploadTime : Str) (s : ServerState) :
      Step s (uploadOp file fileId randStr now uploadTime s).2
  | download (code : Str) (now : Nat) (s : ServerState) :
      Step s (downloadOp code now s).2
  | preview (code : Str) (now : Nat) (s : ServerState) :
      Step s (previewOp code now s).2
  | cleanup (fileId : Str) (s : ServerState) :
      Step s (cleanupTimer fileId s)

/-- States reachable from the empty initial state by server events. -/
inductive Reachable : ServerState → Prop where
  | init : Reachable initialState
  | step {s s2 : ServerState} : Reachable s → Step s s2 → Reachable s2

/-! ## Spec-side definitions -/

/-- The preview eligibility set as the spec words it: the top-level media
class is image, video, audio or text, or the type is exactly
`application/pdf`. -/
def previewableSpec (m : Str) : Prop :=
  (∃ t, "image/".toList ++ t = m) ∨ (∃ t, "video/".toList ++ t = m) ∨
  (∃ t, "audio/".toList ++ t = m) ∨ (∃ t, "text/".toList ++ t = m) ∨
  m = "application/pdf".toList

/-- The invariant tying the two maps together: they hold exactly the same
ids (in the same insertion order), and every stored metadata entry is
previewable with a non-null `previewUrl`. -/
def Inv (s : ServerState) : Prop :=
  s.fileStorage.map Prod.fst = s.fileMetadata.map Prod.fst ∧
  ∀ p ∈ s.fileMetadata, p.2.previewable = true ∧ p.2.previewUrl ≠ none

/-! ## Concrete scenarios used by the individual claims -/

def c1FileA : UploadedFile := ⟨[10], "image/png".toList, "x.png".toList, 4⟩

def c1FileB : UploadedFile := ⟨[20], "image/png".toList, "y.png".toList, 4⟩

/-- The state after two uploads whose `Math.random().toString(36)` results
coincide (`"0.zzz999"` both times; `Math.random` can repeat values and the
server never compares a fresh code against the live ones). -/
def c1State : ServerState :=
  (uploadOp c1FileB "uuid-2".toList "0.zzz999".toList 1000 "t1".toList
    (uploadOp c1FileA "uuid-1".toList "0.zzz999".toList 0 "t0".toList
      initialState).2).2

def c2CexFileA : UploadedFile := ⟨[1], "text/plain".toList, "a.txt".toList, 1⟩

def c2CexFileB : UploadedFile := ⟨[2], "text/plain".toList, "b.txt".toList, 1⟩

/-- A reachable collision state: upload A at `t = 0` and upload B at
`t = 5000`, both issued code `ZZZ999` because their
`Math.random().toString(36)` results coincide (no live-code check, see
C1). At `t = 10800001` object A is past its deadline while B is still
live. -/
def c2CexState : ServerState :=
  (uploadOp c2CexFileB "uuid-b".toList "0.zzz999".toList 5000 "t1".toList
    (uploadOp c2CexFileA "uuid-a".toList "0.zzz999".toList 0 "t0".toList
      initialState).2).2

/-- The download of code `ZZZ999` at `t = 10800001` in the collision
state: it hits expired object A. -/
def c2CexRead : FetchResult × ServerState :=
  downloadOp "ZZZ999".toList 10800001 c2CexState

def c2Fd : FileData := ⟨[104], "text/plain".toList, "a.txt".toList, 1⟩

def c2Meta : Metadata :=
  { fileId := "u1".toList, shortCode := "AAAAAA".toList,
    originalName := "a.txt".toList, size := 1,
    mimetype := "text/plain".toList, uploadTime := "t".toList,
    expirationTime := 100, previewable := true,
    downloadUrl := "/api/download/AAAAAA".toList,
    previewUrl := some "/api/preview/AAAAAA".toList }

def c2State : ServerState := ⟨[("u1".toList, c2Fd)], [("u1".toList, c2Meta)]⟩

def c3FileA : UploadedFile := ⟨[1], "text/plain".toList, "a.txt".toList, 1⟩

def c3FileB : UploadedFile := ⟨[2], "text/plain".toList, "b.txt".toList, 1⟩

/-- A first upload holding code `ABC123` (live for three hours). -/
def c3StateA : ServerState :=
  (uploadOp c3FileA "id-a".toList "0.abc123xyz".toList 0 "t0".toList
    initialState).2

/-- A second upload whose random value collides, so it is issued the same
code `ABC123` while the first object is still live. -/
def c3UploadB : UploadResult × ServerState :=
  uploadOp c3FileB "id-b".toList "0.abc123xyz".toList 1000 "t1".toList c3StateA

def c3RespB : UploadResponse :=
  { shortCode := "ABC123".toList,
    downloadUrl := "/api/download/ABC123".toList,
    previewUrl := some "/api/preview/ABC123".toList,
    filename := "b.txt".toList, size := 1, previewable := true,
    expiresAt := 1000 + ttlMillis }

def c3FreshFile : UploadedFile := ⟨[7, 8], "image/gif".toList, "g.gif".toList, 2⟩

def c4Fd : FileData := ⟨[1, 2], "application/zip".toList, "z.zip".toList, 2⟩

/-- A hand-crafted non-previewable entry (not reachable through upload,
which only admits previewable types — see C9). -/
def c4Meta : Metadata :=
  { fileId := "z1".toList, shortCode := "BBBBBB".toList,
    originalName := "z.zip".toList, size := 2,
    mimetype := "application/zip".toList, uploadTime := "t".toList,
    expirationTime := 10800000, previewable := false,
    downloadUrl := "/api/download/BBBBBB".toList, previewUrl := none }

def c4State : ServerState := ⟨[("z1".toList, c4Fd)], [("z1".toList, c4Meta)]⟩

def c4File : UploadedFile := ⟨[3], "image/gif".toList, "c.gif".toList, 1⟩

def c4Resp : UploadResponse :=
  { shortCode := "CCCCCC".toList,
    downloadUrl := "/api/download/CCCCCC".toList,
    previewUrl := some "/api/preview/CCCCCC".toList,
    filename := "c.gif".toList, size := 1, previewable := true,
    expiresAt := 10800000 }

def c5File : UploadedFile := ⟨[1], "text/plain".toList, "a.txt".toList, 1⟩

def c5S1 : ServerState :=
  (uploadOp c5File "u1".toList "0.abc123".toList 0 "t".toList initialState).2

/-- The state after the upload above followed by a download past the
deadline, which takes the lazy-eviction path. -/
def c5S2 : ServerState :=
  (downloadOp "ABC123".toList (ttlMillis + 1) c5S1).2

def c7File : UploadedFile :=
  ⟨[0], "image/png".toList, "big.png".toList, 10 * 1024 * 1024 + 1⟩

def c7Resp : UploadResponse :=
  ⟨"AAAAAA".toList, "/api/download/AAAAAA".toList, none, "big.png".toList,
    1, true, 0⟩

def c8File : UploadedFile :=
  ⟨[80, 75], "application/zip".toList, "a.zip".toList, 2⟩

def c9File : UploadedFile := ⟨[5], "image/png".toList, "p.png".toList, 1⟩

def c9State : ServerState :=
  (uploadOp c9File "p1".toList "0.dddddd".toList 0 "t".toList initialState).2

def c10Fd : FileData := ⟨[9], "text/plain".toList, "c.txt".toList, 1⟩

def c10Meta : Metadata :=
  { fileId := "w1".toList, shortCode := "CCCCCC".toList,
    originalName := "c.txt".toList, size := 1,
    mimetype := "text/plain".toList, uploadTime := "t".toList,
    expirationTime := 10, previewable := true,
    downloadUrl := "/api/download/CCCCCC".toList,
    previewUrl := some "/api/preview/CCCCCC".toList }

def c10State : ServerState :=
  ⟨[("w1".toList, c10Fd)], [("w1".toList, c10Meta)]⟩

/-! ## Helper lemmas about the `Map` model -/

/-- `m.has(k)` depends only on the key list of the map. -/
theorem mapHas_eq_keys (k : Str) (m : List (Str × α)) :
    mapHas k m = (m.map Prod.fst).any (fun x => x == k) := by
  induction m with
  | nil => rfl
  | cons hd tl ih =>
    simp only [mapHas, List.any_cons, List.map_cons] at ih ⊢
    rw [ih]

/-- Maps with the same key lists answer `has` identically. -/
theorem mapHas_congr_keys {m1 : List (Str × α)} {m2 : List (Str × β)}
    (h : m1.map Prod.fst = m2.map Prod.fst) (k : Str) :
    mapHas k m1 = mapHas k m2 := by
  rw [mapHas_eq_keys, mapHas_eq_keys, h]

/-- Effect of `m.set(k, v)` on the key list: unchanged when `k` was
present, appended otherwise. -/
theorem map_fst_mapSet (k : Str) (v : α) (m : List (Str × α)) :
    (mapSet k v m).map Prod.fst =
      if mapHas k m then m.map Prod.fst else m.map Prod.fst ++ [k] := by
  rw [mapSet]
  split
  · rw [List.map_map]
    refine List.map_congr_left ?_
    intro p _
    by_cases hpk : (p.1 == k) = true
    · simp only [Function.comp_apply, if_pos hpk]
      exact (eq_of_beq hpk).symm
    · simp only [Function.comp_apply, if_neg hpk]
  · simp

/-- Effect of `m.delete(k)` on the key list. -/
theorem map_fst_mapDelete (k : Str) (m : List (Str × α)) :
    (mapDelete k m).map Prod.fst = (m.map Prod.fst).filter (fun x => x != k) := by
  rw [mapDelete]
  induction m with
  | nil => rfl
  | cons hd tl ih =>
    simp only [List.filter_cons, List.map_cons]
    cases h : hd.1 != k <;> simp [h, ih]

/-- Every entry of `m.set(k, v)` is the new entry or an old one. -/
theorem mem_mapSet {p : Str × α} {k : Str} {v : α} {m : List (Str × α)}
    (hp : p ∈ mapSet k v m) : p = (k, v) ∨ p ∈ m := by
  rw [mapSet] at hp
  split at hp
  · rcases List.mem_map.mp hp with ⟨q, hq, hpq⟩
    by_cases hqk : (q.1 == k) = true
    · left
      rw [← hpq, if_pos hqk]
    · right
      rw [← hpq, if_neg hqk]
      exact hq
  · rcases List.mem_append.mp hp with hq | hq
    · right; exact hq
    · left; simpa using hq

/-- Every entry of `m.delete(k)` is an entry of `m`. -/
theorem mem_mapDelete {p : Str × α} {k : Str} {m : List (Str × α)}
    (hp : p ∈ mapDelete k m) : p ∈ m :=
  (List.mem_filter.mp hp).1

/-- `m.get(k)` at a cons whose head key matches. -/
theorem mapGet_cons_of_pos {k : Str} {hd : Str × α} {tl : List (Str × α)}
    (h : (hd.1 == k) = true) : mapGet k (hd :: tl) = some hd.2 := by
  have hfind : List.find? (fun p => p.1 == k) (hd :: tl) = some hd :=
    List.find?_cons_of_pos _ h
  rw [mapGet, hfind]
  rfl

/-- `m.get(k)` at a cons whose head key does not match. -/
theorem mapGet_cons_of_neg {k : Str} {hd : Str × α} {tl : List (Str × α)}
    (h : ¬ (hd.1 == k) = true) : mapGet k (hd :: tl) = mapGet k tl := by
  have hfind : List.find? (fun p => p.1 == k) (hd :: tl) =
      List.find? (fun p => p.1 == k) tl :=
    List.find?_cons_of_neg _ h
  rw [mapGet, hfind, mapGet]

/-- `m.get(k)` right after `m.set(k, v)` returns `v`. -/
theorem mapGet_mapSet_self (k : Str) (v : α) (m : List (Str × α)) :
    mapGet k (mapSet k v m) = some v := by
  induction m with
  | nil =>
    rw [mapSet, if_neg (by rw [mapHas]; simp), List.nil_append]
    exact mapGet_cons_of_pos (by simp)
  | cons hd tl ih =>
    by_cases hhd : (hd.1 == k) = true
    · have hhas : mapHas k (hd :: tl) = true := by
        rw [mapHas, List.any_cons]
        simp only [hhd, Bool.true_or]
      rw [mapSet, if_pos hhas, List.map_cons, if_pos hhd]
      exact mapGet_cons_of_pos (by simp)
    · have hhd2 : (hd.1 == k) = false := by simpa using hhd
      have hany : mapHas k (hd :: tl) = mapHas k tl := by
        rw [mapHas, List.any_cons]
        simp only [hhd2, Bool.false_or]
        rfl
      by_cases htl : mapHas k tl = true
      · rw [mapSet, if_pos (by rw [hany]; exact htl), List.map_cons, if_neg hhd,
          mapGet_cons_of_neg hhd]
        rw [mapSet, if_pos htl] at ih
        exact ih
      · have htl2 : mapHas k tl = false := by simpa using htl
        rw [mapSet, if_neg (by rw [hany, htl2]; simp), List.cons_append,
          mapGet_cons_of_neg hhd]
        rw [mapSet, if_neg (by rw [htl2]; simp)] at ih
        exact ih

/-- If `k` is not a key of `m`, the key scan finds nothing. -/
theorem find?_key_eq_none {k : Str} {m : List (Str × α)}
    (h : mapHas k m = false) : m.find? (fun p => p.1 == k) = none := by
  rw [mapHas] at h
  rw [List.find?_eq_none]
  intro p hp hpk
  exact (List.any_eq_false.mp h) p hp hpk

/-- `m.set(k, v)` on a map not containing `k` appends the new entry. -/
theorem mapSet_of_not_has {k : Str} {v : α} {m : List (Str × α)}
    (h : mapHas k m = false) : mapSet k v m = m ++ [(k, v)] := by
  rw [mapSet, if_neg (by rw [h]; simp)]

/-! ## Facts about the allow-list and previewability -/

/-- Every MIME type accepted by the multer `fileFilter` is previewable:
the upload allow-list is a subset of the preview set. -/
theorem allowed_isPreviewable : ∀ m ∈ allowedTypes, isPreviewable m = true := by
  decide

/-- The `fileFilter` test is exactly list membership. -/
theorem fileFilter_eq_true_iff (m : Str) :
    fileFilter m = true ↔ m ∈ allowedTypes := by
  simp [fileFilter]

/-! ## The store invariant maintained by every server event -/

theorem inv_initialState : Inv initialState := by
  constructor
  · rfl
  · intro p hp
    cases hp

theorem inv_uploadOp (file : UploadedFile) (fileId randStr : Str) (now : Nat)
    (uploadTime : Str) {s : ServerState} (h : Inv s) :
    Inv (uploadOp file fileId randStr now uploadTime s).2 := by
  obtain ⟨h1, h2⟩ := h
  rw [uploadOp]
  by_cases hf : fileFilter file.mimetype = true
  · by_cases hsz : file.size ≤ fileSizeLimit
    · rw [if_pos hf, if_pos hsz, uploadHandler]
      have hprev : isPreviewable file.mimetype = true :=
        allowed_isPreviewable _ ((fileFilter_eq_true_iff _).mp hf)
      constructor
      · show (mapSet fileId _ s.fileStorage).map Prod.fst =
          (mapSet fileId _ s.fileMetadata).map Prod.fst
        rw [map_fst_mapSet, map_fst_mapSet, h1, mapHas_congr_keys h1]
      · intro p hp
        rcases mem_mapSet hp with hnew | hold
        · rw [hnew]
          simp only [storedMetadata]
          refine ⟨hprev, ?_⟩
          rw [if_pos hprev]
          simp
        · exact h2 p hold
    · rw [if_pos hf, if_neg hsz]
      exact ⟨h1, h2⟩
  · rw [if_neg hf]
    exact ⟨h1, h2⟩

theorem inv_removeEntry (fileId : Str) {s : ServerState} (h : Inv s) :
    Inv (removeEntry fileId s) := by
  obtain ⟨h1, h2⟩ := h
  constructor
  · show (mapDelete fileId s.fileStorage).map Prod.fst =
      (mapDelete fileId s.fileMetadata).map Prod.fst
    rw [map_fst_mapDelete, map_fst_mapDelete, h1]
  · intro p hp
    exact h2 p (mem_mapDelete hp)

theorem inv_downloadOp (code : Str) (now : Nat) {s : ServerState} (h : Inv s) :
    Inv (downloadOp code now s).2 := by
  rw [downloadOp]
  split
  · exact h
  · split
    · exact h
    · split
      · exact inv_removeEntry _ h
      · exact h

theorem inv_previewOp (code : Str) (now : Nat) {s : ServerState} (h : Inv s) :
    Inv (previewOp code now s).2 := by
  rw [previewOp]
  split
  · exact h
  · split
    · exact h
    · split
      · exact h
      · split
        · exact inv_removeEntry _ h
        · exact h

theorem inv_cleanupTimer (fileId : Str) {s : ServerState} (h : Inv s) :
    Inv (cleanupTimer fileId s) := by
  rw [cleanupTimer]
  by_cases hhas : mapHas fileId s.fileStorage = true
  · rw [if_pos hhas]
    exact inv_removeEntry fileId h
  · rw [if_neg hhas]
    exact h

/-- Every reachable server state satisfies the store invariant. -/
theorem reachable_inv {s : ServerState} (h : Reachable s) : Inv s := by
  induction h with
  | init => exact inv_initialState
  | step _ hstep ih =>
    cases hstep with
    | upload file fileId randStr now uploadTime s =>
      exact inv_uploadOp file fileId randStr now uploadTime ih
    | download code now s => exact inv_downloadOp code now ih
    | preview code now s => exact inv_previewOp code now ih
    | cleanup fileId s => exact inv_cleanupTimer fileId ih

/-! ## Lemmas about the short-code scan -/

/-- When the live short codes are pairwise distinct, the insertion-order
scan resolves an object's code to exactly that object. -/
theorem findByCode_of_mem {id : Str} {meta : Metadata}
    {metas : List (Str × Metadata)} (hmem : (id, meta) ∈ metas)
    (hnodup : (metas.map (fun p => p.2.shortCode)).Nodup) :
    findByCode meta.shortCode metas = some (id, meta) := by
  induction metas with
  | nil => cases hmem
  | cons hd tl ih =>
    rw [List.map_cons, List.nodup_cons] at hnodup
    obtain ⟨hnotin, hnodup2⟩ := hnodup
    rcases List.mem_cons.mp hmem with heq | hmem2
    · have hpos : ((fun p => p.2.shortCode == meta.shortCode) hd) = true := by
        rw [← heq]
        simp
      have hfind : List.find? (fun p => p.2.shortCode == meta.shortCode)
          (hd :: tl) = some hd := List.find?_cons_of_pos _ hpos
      rw [findByCode, hfind, heq]
    · have hne : ¬ ((fun p => p.2.shortCode == meta.shortCode) hd = true) := by
        simp only [beq_iff_eq]
        intro hcontra
        apply hnotin
        rw [hcontra]
        exact List.mem_map_of_mem _ hmem2
      have hfind : List.find? (fun p => p.2.shortCode == meta.shortCode)
          (hd :: tl) = List.find? (fun p => p.2.shortCode == meta.shortCode) tl :=
        List.find?_cons_of_neg _ hne
      rw [findByCode, hfind]
      exact ih hmem2 hnodup2

/-- After deleting an object's id, its code no longer resolves (codes
pairwise distinct among live objects). -/
theorem findByCode_mapDelete {id : Str} {meta : Metadata}
    {metas : List (Str × Metadata)} (hmem : (id, meta) ∈ metas)
    (hnodup : (metas.map (fun p => p.2.shortCode)).Nodup) :
    findByCode meta.shortCode (mapDelete id metas) = none := by
  cases hfind : findByCode meta.shortCode (mapDelete id metas) with
  | none => rfl
  | some q =>
    exfalso
    have hfind2 : List.find? (fun p => p.2.shortCode == meta.shortCode)
        (mapDelete id metas) = some q := hfind
    have hq1 : q ∈ mapDelete id metas := List.mem_of_find?_eq_some hfind2
    have hq2 : (q.2.shortCode == meta.shortCode) = true :=
      List.find?_some
        (p := fun q : Str × Metadata => q.2.shortCode == meta.shortCode) hfind2
    have hqmem : q ∈ metas := mem_mapDelete hq1
    have hqcode : q.2.shortCode = meta.shortCode := by simpa using hq2
    have hqe : q = (id, meta) :=
      List.inj_on_of_nodup_map hnodup hqmem hmem hqcode
    have hkey : (q.1 != id) = true := (List.mem_filter.mp hq1).2
    rw [hqe] at hkey
    simp at hkey

/-- A freshly appended entry with a code no live object holds is what the
scan finds for that code. -/
theorem findByCode_append_fresh (id : Str) (meta : Metadata)
    {metas : List (Str × Metadata)}
    (h : findByCode meta.shortCode metas = none) :
    findByCode meta.shortCode (metas ++ [(id, meta)]) = some (id, meta) := by
  rw [findByCode] at h ⊢
  rw [List.find?_append, h]
  have hpos : List.find?
      (fun p : Str × Metadata => p.2.shortCode == meta.shortCode)
      [(id, meta)] = some (id, meta) := List.find?_cons_of_pos _ (by simp)
  rw [hpos]
  rfl

/-- Evaluation of download at a code that resolves to an unexpired object
whose payload entry is present. -/
theorem downloadOp_eq_of_found {code : Str} {now : Nat} {s : ServerState}
    {id : Str} {meta : Metadata} {fd : FileData}
    (hfind : findByCode code s.fileMetadata = some (id, meta))
    (hget : mapGet id s.fileStorage = some fd)
    (hnotexp : ¬ now > meta.expirationTime) :
    downloadOp code now s =
      (FetchResult.ok fd.buffer meta.mimetype meta.originalName, s) := by
  rw [downloadOp]
  simp only [hfind, hget, if_neg hnotexp]

/-! ## Claim C1: uniqueness of live short codes -/

/-- C1: the claim says upload checks the live-code index and retries
generation on collision, so live objects always carry distinct codes. The
code has no such check: `app.post('/upload')` calls `generateShortCode()`
exactly once and stores the result unconditionally, so two uploads whose
random values collide leave two simultaneously live objects (both ids
present, both unexpired at time 2000) with the same `shortCode`. -/
theorem duplicate_code_after_colliding_uploads :
    c1State.fileMetadata.map Prod.fst = ["uuid-1".toList, "uuid-2".toList] ∧
    c1State.fileMetadata.map (fun p => p.2.shortCode) =
      ["ZZZ999".toList, "ZZZ999".toList] ∧
    (∀ p ∈ c1State.fileMetadata, 2000 ≤ p.2.expirationTime) := by
  decide

/-! ## Claim C6: shape of generated short codes -/

/-- C6: the claim says `generateShortCode` always returns a fixed-length
six-character uppercase alphanumeric string. It does not: the code is
`Math.random().toString(36).substring(2, 8).toUpperCase()`, and
`toString(36)` yields fewer than six fractional digits for random values
with a short base-36 representation — `Math.random()` can return `0.5`,
whose `toString(36)` is `"0.i"`, giving the one-character code `"I"`. -/
theorem generateShortCode_not_fixed_length :
    generateShortCode "0.i".toList = ['I'] ∧
    (generateShortCode "0.i".toList).length = 1 := by
  decide

/-! ## Claim C7: oversized uploads -/

/-- C7: a payload larger than the 10 MiB cap (`limits.fileSize`) is
rejected by multer before the handler runs: no object is created, the
state is unchanged, and (for an allow-listed content-type, the case the
claim describes) the error is `PayloadTooLarge` / `LIMIT_FILE_SIZE`. -/
theorem oversized_upload_rejected (file : UploadedFile)
    (fileId randStr : Str) (now : Nat) (uploadTime : Str) (s : ServerState)
    (hsize : file.size > fileSizeLimit) :
    (uploadOp file fileId randStr now uploadTime s).2 = s ∧
    (∀ resp, (uploadOp file fileId randStr now uploadTime s).1 ≠
      UploadResult.ok resp) ∧
    (fileFilter file.mimetype = true →
      (uploadOp file fileId randStr now uploadTime s).1 =
        UploadResult.payloadTooLarge) := by
  rw [uploadOp]
  by_cases hf : fileFilter file.mimetype = true
  · rw [if_pos hf, if_neg (by omega)]
    exact ⟨rfl, fun resp h => UploadResult.noConfusion h, fun _ => rfl⟩
  · rw [if_neg hf]
    exact ⟨rfl, fun resp h => UploadResult.noConfusion h,
      fun hcontra => absurd hcontra hf⟩

theorem oversized_upload_rejected_witness :
    (uploadOp c7File "u1".toList "0.aaaaaa".toList 0 "t".toList
      initialState).2 = initialState ∧
    (uploadOp c7File "u1".toList "0.aaaaaa".toList 0 "t".toList
      initialState).1 ≠ UploadResult.ok c7Resp ∧
    (uploadOp c7File "u1".toList "0.aaaaaa".toList 0 "t".toList
      initialState).1 = UploadResult.payloadTooLarge := by
  have h := oversized_upload_rejected c7File "u1".toList "0.aaaaaa".toList 0
    "t".toList initialState (by decide)
  exact ⟨h.1, h.2.1 c7Resp, h.2.2 (by decide)⟩

/-! ## Claim C8: unsupported content-types -/

/-- C8: an upload whose content-type is not in the fixed, case-sensitive
`allowedTypes` list is rejected by the multer `fileFilter` before the
handler runs: the result is `UnsupportedType` and the state is
unchanged. -/
theorem unsupported_type_upload_rejected (file : UploadedFile)
    (fileId randStr : Str) (now : Nat) (uploadTime : Str) (s : ServerState)
    (hmt : file.mimetype ∉ allowedTypes) :
    (uploadOp file fileId randStr now uploadTime s).1 =
      UploadResult.unsupportedType ∧
    (uploadOp file fileId randStr now uploadTime s).2 = s := by
  have hf : ¬ fileFilter file.mimetype = true := fun h =>
    hmt ((fileFilter_eq_true_iff _).mp h)
  rw [uploadOp, if_neg hf]
  exact ⟨rfl, rfl⟩

theorem unsupported_type_upload_rejected_witness :
    (uploadOp c8File "u1".toList "0.bbbbbb".toList 0 "t".toList
      initialState).1 = UploadResult.unsupportedType ∧
    (uploadOp c8File "u1".toList "0.bbbbbb".toList 0 "t".toList
      initialState).2 = initialState :=
  unsupported_type_upload_rejected c8File "u1".toList "0.bbbbbb".toList 0
    "t".toList initialState (by decide)

/-! ## Claim C2: expired objects -/

/-- C2 as stated is false on the code, because code uniqueness is not
enforced (see C1). In the reachable collision state `c2CexState` — A
uploaded at `t = 0`, B at `t = 5000`, both live under code `ZZZ999` — a
download of `ZZZ999` at `t = 10800001` finds expired object A first,
answers `Expired` (410) and evicts A; but the claimed "subsequent lookup
of that code returns `NotFound`" fails: the next download of the very
same code finds the surviving duplicate B and answers 200 with B's
payload. -/
theorem expired_object_read_counterexample :
    c2CexState.fileMetadata.map Prod.fst =
      ["uuid-a".toList, "uuid-b".toList] ∧
    c2CexState.fileMetadata.map (fun p => p.2.shortCode) =
      ["ZZZ999".toList, "ZZZ999".toList] ∧
    c2CexState.fileMetadata.map (fun p => p.2.expirationTime) =
      [10800000, 10805000] ∧
    c2CexRead.1 = FetchResult.expired ∧
    c2CexRead.2.fileMetadata.map Prod.fst = ["uuid-b".toList] ∧
    (downloadOp "ZZZ999".toList 10800001 c2CexRead.2).1 =
      FetchResult.ok [2] "text/plain".toList "b.txt".toList ∧
    (downloadOp "ZZZ999".toList 10800001 c2CexRead.2).1 ≠
      FetchResult.notFound := by
  decide

/-- C2 amended: for a stored object past its deadline
(`now > expirationTime`) whose short code no other live object shares —
the uniqueness the spec intends, which the code does not enforce (C1) —
both download and preview answer `Expired` (410) and evict the object
from both maps, after which the code no longer resolves (`NotFound`).
The remaining hypotheses record invariants every reachable state
satisfies: the object's payload entry exists (C5) and the object is
previewable (C9). -/
theorem expired_object_reads (s : ServerState) (id : Str) (meta : Metadata)
    (now : Nat) (hmem : (id, meta) ∈ s.fileMetadata)
    (hnodup : (s.fileMetadata.map (fun p => p.2.shortCode)).Nodup)
    (hprev : meta.previewable = true)
    (hdata : (mapGet id s.fileStorage).isSome = true)
    (hexp : now > meta.expirationTime) :
    downloadOp meta.shortCode now s = (FetchResult.expired, removeEntry id s) ∧
    previewOp meta.shortCode now s = (FetchResult.expired, removeEntry id s) ∧
    (downloadOp meta.shortCode now (downloadOp meta.shortCode now s).2).1 =
      FetchResult.notFound ∧
    (previewOp meta.shortCode now (previewOp meta.shortCode now s).2).1 =
      FetchResult.notFound := by
  obtain ⟨fd, hfd⟩ := Option.isSome_iff_exists.mp hdata
  have hfind := findByCode_of_mem hmem hnodup
  have hgone := findByCode_mapDelete hmem hnodup
  have hdl : downloadOp meta.shortCode now s =
      (FetchResult.expired, removeEntry id s) := by
    rw [downloadOp]
    simp only [hfind, hfd, if_pos hexp]
  have hpv : previewOp meta.shortCode now s =
      (FetchResult.expired, removeEntry id s) := by
    rw [previewOp]
    simp only [hfind, hprev, Bool.not_true, Bool.false_eq_true, if_false,
      hfd, if_pos hexp]
  have hnf : downloadOp meta.shortCode now (removeEntry id s) =
      (FetchResult.notFound, removeEntry id s) := by
    rw [downloadOp]
    simp only [removeEntry, hgone]
  have hnp : previewOp meta.shortCode now (removeEntry id s) =
      (FetchResult.notFound, removeEntry id s) := by
    rw [previewOp]
    simp only [removeEntry, hgone]
  refine ⟨hdl, hpv, ?_, ?_⟩
  · rw [hdl, hnf]
  · rw [hpv, hnp]

theorem expired_object_reads_witness :
    downloadOp c2Meta.shortCode 101 c2State =
      (FetchResult.expired, removeEntry "u1".toList c2State) ∧
    previewOp c2Meta.shortCode 101 c2State =
      (FetchResult.expired, removeEntry "u1".toList c2State) ∧
    (downloadOp c2Meta.shortCode 101
      (downloadOp c2Meta.shortCode 101 c2State).2).1 = FetchResult.notFound ∧
    (previewOp c2Meta.shortCode 101
      (previewOp c2Meta.shortCode 101 c2State).2).1 = FetchResult.notFound :=
  expired_object_reads c2State "u1".toList c2Meta 101 (by decide) (by decide)
    (by decide) (by decide) (by decide)

/-! ## Claim C3: upload/download roundtrip -/

/-- C3 as stated is false: the second upload succeeds and returns code
`ABC123`, but an immediate download of that code (well before expiry)
returns the FIRST object's payload `[1]` and name `a.txt` — not the
uploaded bytes `[2]` and name `b.txt` — because the metadata scan stops
at the earliest entry with that code. -/
theorem upload_download_roundtrip_counterexample :
    c3UploadB.1 = UploadResult.ok c3RespB ∧
    c3RespB.shortCode = "ABC123".toList ∧
    2000 ≤ c3RespB.expiresAt ∧
    (downloadOp "ABC123".toList 2000 c3UploadB.2).1 =
      FetchResult.ok [1] "text/plain".toList "a.txt".toList ∧
    c3FileB.buffer = [2] ∧ c3FileB.originalname = "b.txt".toList ∧
    FetchResult.ok [1] "text/plain".toList "a.txt".toList ≠
      FetchResult.ok c3FileB.buffer c3FileB.mimetype c3FileB.originalname := by
  decide

/-- C3 amended: for every successful upload whose generated short code is
not already held by a live object (which the code, unlike the spec, does
not enforce) and whose `uuidv4` id is fresh, an immediate download of the
returned code (before expiry) yields the uploaded bytes, content-type and
original filename. -/
theorem fresh_upload_download_roundtrip (file : UploadedFile)
    (fileId randStr : Str) (now dlNow : Nat) (uploadTime : Str)
    (s : ServerState) (hf : fileFilter file.mimetype = true)
    (hsz : file.size ≤ fileSizeLimit)
    (hcode : findByCode (generateShortCode randStr) s.fileMetadata = none)
    (hid : mapHas fileId s.fileMetadata = false)
    (hlive : dlNow ≤ now + ttlMillis) :
    ∃ resp : UploadResponse,
      (uploadOp file fileId randStr now uploadTime s).1 =
        UploadResult.ok resp ∧
      resp.shortCode = generateShortCode randStr ∧
      (downloadOp resp.shortCode dlNow
        (uploadOp file fileId randStr now uploadTime s).2).1 =
        FetchResult.ok file.buffer file.mimetype file.originalname := by
  have hstep : uploadOp file fileId randStr now uploadTime s =
      uploadHandler file fileId randStr now uploadTime s := by
    rw [uploadOp, if_pos hf, if_pos hsz]
  rw [hstep, uploadHandler]
  refine ⟨_, rfl, rfl, ?_⟩
  have hfound : findByCode (generateShortCode randStr)
      (mapSet fileId
        (storedMetadata file fileId (generateShortCode randStr) now uploadTime)
        s.fileMetadata) =
      some (fileId,
        storedMetadata file fileId (generateShortCode randStr) now
          uploadTime) := by
    rw [mapSet_of_not_has hid]
    exact findByCode_append_fresh fileId
      (storedMetadata file fileId (generateShortCode randStr) now uploadTime)
      hcode
  have hget : mapGet fileId
      (mapSet fileId (storedFileData file) s.fileStorage) =
      some (storedFileData file) := mapGet_mapSet_self _ _ _
  show (downloadOp (generateShortCode randStr) dlNow
      ⟨mapSet fileId (storedFileData file) s.fileStorage,
       mapSet fileId
         (storedMetadata file fileId (generateShortCode randStr) now
           uploadTime) s.fileMetadata⟩).1 =
    FetchResult.ok file.buffer file.mimetype file.originalname
  rw [downloadOp_eq_of_found
    (s := ⟨mapSet fileId (storedFileData file) s.fileStorage,
           mapSet fileId
             (storedMetadata file fileId (generateShortCode randStr) now
               uploadTime) s.fileMetadata⟩)
    hfound hget (show ¬ dlNow > now + ttlMillis by omega)]
  rfl

theorem fresh_upload_download_roundtrip_witness :
    ∃ resp : UploadResponse,
      (uploadOp c3FreshFile "id-c".toList "0.qqqqqq".toList 0 "t".toList
        initialState).1 = UploadResult.ok resp ∧
      resp.shortCode = generateShortCode "0.qqqqqq".toList ∧
      (downloadOp resp.shortCode 500
        (uploadOp c3FreshFile "id-c".toList "0.qqqqqq".toList 0 "t".toList
          initialState).2).1 =
        FetchResult.ok [7, 8] "image/gif".toList "g.gif".toList :=
  fresh_upload_download_roundtrip c3FreshFile "id-c".toList
    "0.qqqqqq".toList 0 500 "t".toList initialState (by decide) (by decide)
    (by decide) (by decide) (by decide)

/-! ## Claim C4: previewability -/

/-- C4: `isPreviewable` agrees exactly with the spec's class description;
every issued code stores `previewable = isPreviewable(mimetype)` (both in
the response and in the metadata map); and preview of a code resolving to
a non-previewable object answers `NotPreviewable` (403), leaving the
state unchanged. -/
theorem previewable_iff_media_class :
    (∀ m : Str, isPreviewable m = true ↔ previewableSpec m) ∧
    (∀ (file : UploadedFile) (fileId randStr : Str) (now : Nat)
      (uploadTime : Str) (s : ServerState) (resp : UploadResponse),
      (uploadOp file fileId randStr now uploadTime s).1 =
        UploadResult.ok resp →
      resp.previewable = isPreviewable file.mimetype ∧
      ∃ meta : Metadata,
        mapGet fileId
          (uploadOp file fileId randStr now uploadTime s).2.fileMetadata =
          some meta ∧
        meta.shortCode = resp.shortCode ∧
        meta.previewable = isPreviewable file.mimetype) ∧
    (∀ (s : ServerState) (code : Str) (now : Nat) (id : Str)
      (meta : Metadata),
      findByCode code s.fileMetadata = some (id, meta) →
      meta.previewable = false →
      previewOp code now s = (FetchResult.notPreviewable, s)) := by
  refine ⟨?_, ?_, ?_⟩
  · intro m
    rw [isPreviewable, previewableSpec]
    simp only [Bool.or_eq_true, List.isPrefixOf_iff_prefix, beq_iff_eq,
      List.IsPrefix]
    tauto
  · intro file fileId randStr now uploadTime s resp h
    rw [uploadOp] at h ⊢
    by_cases hf : fileFilter file.mimetype = true
    · by_cases hsz : file.size ≤ fileSizeLimit
      · rw [if_pos hf, if_pos hsz] at h ⊢
        rw [uploadHandler] at h ⊢
        have hresp : UploadResult.ok
            (uploadResponse file (generateShortCode randStr) now) =
            UploadResult.ok resp := h
        injection hresp with h2
        subst h2
        refine ⟨rfl, ?_⟩
        refine ⟨storedMetadata file fileId (generateShortCode randStr) now
          uploadTime, ?_, rfl, rfl⟩
        show mapGet fileId (mapSet fileId
          (storedMetadata file fileId (generateShortCode randStr) now
            uploadTime) s.fileMetadata) = _
        exact mapGet_mapSet_self _ _ _
      · rw [if_pos hf, if_neg hsz] at h
        exact UploadResult.noConfusion h
    · rw [if_neg hf] at h
      exact UploadResult.noConfusion h
  · intro s code now id meta hfind hprev
    rw [previewOp]
    simp only [hfind, hprev, Bool.not_false]
    rw [if_pos trivial]

theorem previewable_iff_media_class_witness :
    previewableSpec "image/png".toList ∧
    (c4Resp.previewable = isPreviewable c4File.mimetype ∧
      ∃ meta : Metadata,
        mapGet "c1".toList
          (uploadOp c4File "c1".toList "0.cccccc".toList 0 "t".toList
            initialState).2.fileMetadata = some meta ∧
        meta.shortCode = c4Resp.shortCode ∧
        meta.previewable = isPreviewable c4File.mimetype) ∧
    previewOp "BBBBBB".toList 5 c4State =
      (FetchResult.notPreviewable, c4State) := by
  refine ⟨?_, ?_, ?_⟩
  · exact (previewable_iff_media_class.1 "image/png".toList).mp (by decide)
  · exact previewable_iff_media_class.2.1 c4File "c1".toList
      "0.cccccc".toList 0 "t".toList initialState c4Resp (by decide)
  · exact previewable_iff_media_class.2.2 c4State "BBBBBB".toList 5
      "z1".toList c4Meta (by decide) (by decide)

/-! ## Claim C5: the two maps stay aligned -/

/-- C5: in every reachable state, `fileStorage` and `fileMetadata` hold
exactly the same ids (indeed, the same key list): upload inserts into
both together, and both removal paths (timer callback and lazy eviction
on an expired read) delete from both together. -/
theorem maps_always_hold_same_ids (s : ServerState) (h : Reachable s) :
    s.fileStorage.map Prod.fst = s.fileMetadata.map Prod.fst ∧
    ∀ id : Str, mapHas id s.fileStorage = mapHas id s.fileMetadata := by
  have hinv := reachable_inv h
  exact ⟨hinv.1, fun id => mapHas_congr_keys hinv.1 id⟩

theorem maps_always_hold_same_ids_witness :
    c5S2.fileStorage.map Prod.fst = c5S2.fileMetadata.map Prod.fst ∧
    mapHas "u1".toList c5S2.fileStorage =
      mapHas "u1".toList c5S2.fileMetadata := by
  have hr : Reachable c5S2 :=
    Reachable.step
      (Reachable.step Reachable.init
        (Step.upload c5File "u1".toList "0.abc123".toList 0 "t".toList
          initialState))
      (Step.download "ABC123".toList (ttlMillis + 1) c5S1)
  exact ⟨(maps_always_hold_same_ids c5S2 hr).1,
    (maps_always_hold_same_ids c5S2 hr).2 "u1".toList⟩

/-! ## Claim C9: the 403 branch is dead for uploaded objects -/

/-- C9: the allow-list is contained in the preview set, so every object
that reaches the store through upload has `previewable = true` and a
non-null `previewUrl`, and in every reachable state the preview handler
can never answer `NotPreviewable` (403). -/
theorem preview_403_unreachable :
    (∀ m ∈ allowedTypes, isPreviewable m = true) ∧
    (∀ s : ServerState, Reachable s →
      (∀ p ∈ s.fileMetadata, p.2.previewable = true ∧
        p.2.previewUrl ≠ none) ∧
      ∀ (code : Str) (now : Nat),
        (previewOp code now s).1 ≠ FetchResult.notPreviewable) := by
  refine ⟨allowed_isPreviewable, ?_⟩
  intro s hs
  have hinv := reachable_inv hs
  refine ⟨hinv.2, ?_⟩
  intro code now
  rw [previewOp]
  split
  · simp
  · rename_i fileId metadata heq
    have hfind2 : List.find? (fun p : Str × Metadata =>
        p.2.shortCode == code) s.fileMetadata = some (fileId, metadata) := heq
    have hmem : (fileId, metadata) ∈ s.fileMetadata :=
      List.mem_of_find?_eq_some hfind2
    have hp := (hinv.2 _ hmem).1
    rw [hp, if_neg (by simp)]
    split
    · simp
    · split
      · simp
      · simp

theorem preview_403_unreachable_witness :
    isPreviewable "image/png".toList = true ∧
    (previewOp "DDDDDD".toList 5 c9State).1 ≠
      FetchResult.notPreviewable := by
  have hr : Reachable c9State :=
    Reachable.step Reachable.init
      (Step.upload c9File "p1".toList "0.dddddd".toList 0 "t".toList
        initialState)
  exact ⟨preview_403_unreachable.1 "image/png".toList (by decide),
    (preview_403_unreachable.2 c9State hr).2 "DDDDDD".toList 5⟩

/-! ## Claim C10: reads of unknown codes are pure -/

/-- C10: download and preview of a code not matching any live object
answer `NotFound` (404) and return the state unchanged; and whenever a
read does change the state, the result was `Expired` — the expired-object
eviction is the only mutation a read can perform. -/
theorem unknown_code_reads_pure (s : ServerState) (code : Str) (now : Nat) :
    (findByCode code s.fileMetadata = none →
      downloadOp code now s = (FetchResult.notFound, s) ∧
      previewOp code now s = (FetchResult.notFound, s)) ∧
    ((downloadOp code now s).2 ≠ s →
      (downloadOp code now s).1 = FetchResult.expired) ∧
    ((previewOp code now s).2 ≠ s →
      (previewOp code now s).1 = FetchResult.expired) := by
  refine ⟨?_, ?_, ?_⟩
  · intro hnone
    constructor
    · rw [downloadOp]
      simp only [hnone]
    · rw [previewOp]
      simp only [hnone]
  · rw [downloadOp]
    split
    · intro h
      exact absurd rfl h
    · split
      · intro h
        exact absurd rfl h
      · split
        · intro _
          rfl
        · intro h
          exact absurd rfl h
  · rw [previewOp]
    split
    · intro h
      exact absurd rfl h
    · split
      · intro h
        exact absurd rfl h
      · split
        · intro h
          exact absurd rfl h
        · split
          · intro _
            rfl
          · intro h
            exact absurd rfl h

theorem unknown_code_reads_pure_witness :
    (downloadOp "XXXXXX".toList 0 c10State =
      (FetchResult.notFound, c10State) ∧
     previewOp "XXXXXX".toList 0 c10State =
      (FetchResult.notFound, c10State)) ∧
    (downloadOp "CCCCCC".toList 11 c10State).1 = FetchResult.expired := by
  refine ⟨(unknown_code_reads_pure c10State "XXXXXX".toList 0).1
    (by decide), ?_⟩
  exact (unknown_code_reads_pure c10State "CCCCCC".toList 11).2.1 (by decide)

end TempCdn
